import Mathlib

/-!
Verification of the Instapaper RSS sync scripts.

This file shallowly embeds the core logic of `src/main.py` (the primary,
hardened variant of the program; `src/instapaper_rss_feed_sync.py` is an
earlier variant of the same design).  Decoded JSON values are modelled by the
inductive `JVal` (JSON numbers are modelled as integers, which covers every
value the program manipulates), Python dictionaries by insertion-ordered
association lists, timestamps by integers, and the remote HTTP calls by
explicit outcome values: a call either raises (a transport exception) or
returns a status code together with an optionally-decodable body.  Functions
that may let a Python exception propagate return `Option`; `none` means the
exception escapes the function.
-/

namespace InstapaperSync

/-- A decoded JSON value, as produced by `res.json()` / `json.loads`.
Numbers are modelled as integers. -/
inductive JVal where
  | null
  | bool (b : Bool)
  | num (n : Int)
  | str (s : String)
  | arr (elems : List JVal)
  | obj (fields : List (String × JVal))
deriving Repr

/-- Lookup in a Python dict modelled as an insertion-ordered association
list (keys are unique in a decoded JSON object, so first match suffices). -/
def dictLookup {α : Type} : List (String × α) → String → Option α
  | [], _ => none
  | (k, v) :: rest, j => if k = j then some v else dictLookup rest j

/-- `m.contains k` for a Python dict: `k in m`. -/
def dictHasKey {α : Type} (m : List (String × α)) (k : String) : Bool :=
  (dictLookup m k).isSome

/-- Python dict assignment `m[k] = v`: update in place if the key exists
(keeping its position), append otherwise. -/
def dictInsert {α : Type} : List (String × α) → String → α → List (String × α)
  | [], k, v => [(k, v)]
  | (k, w) :: rest, j, v =>
    if k = j then (j, v) :: rest else (k, w) :: dictInsert rest j v

/-- `d.get(k)` on a Python dict (`none` models both a missing key and the
AttributeError of calling `.get` on a non-dict, the latter never reached by
the embedded code because `isinstance` guards precede it). -/
def jGet : JVal → String → Option JVal
  | .obj fields, k => dictLookup fields k
  | _, _ => none

/-- The single-quote character, used by Python repr of strings. -/
def sq : String := String.singleton (Char.ofNat 39)

mutual

/-- Python `repr()` of a decoded JSON value (string escaping inside `repr`
of strings is elided: the embedded program never formats a string that
needs escapes). -/
def pyRepr : JVal → String
  | .null => "None"
  | .bool true => "True"
  | .bool false => "False"
  | .num n => toString n
  | .str s => sq ++ s ++ sq
  | .arr xs => "[" ++ pyReprList xs ++ "]"
  | .obj fs => "\x7b" ++ pyReprFields fs ++ "\x7d"

/-- Comma-separated `repr`s of list elements. -/
def pyReprList : List JVal → String
  | [] => ""
  | [x] => pyRepr x
  | x :: y :: rest => pyRepr x ++ ", " ++ pyReprList (y :: rest)

/-- Comma-separated `repr`s of dict entries. -/
def pyReprFields : List (String × JVal) → String
  | [] => ""
  | [(k, v)] => sq ++ k ++ sq ++ ": " ++ pyRepr v
  | (k, v) :: p :: rest =>
    sq ++ k ++ sq ++ ": " ++ pyRepr v ++ ", " ++ pyReprFields (p :: rest)

end

/-- Python `str()` of a decoded JSON value; `str(None) = "None"`. -/
def pyStr : JVal → String
  | .null => "None"
  | .bool true => "True"
  | .bool false => "False"
  | .num n => toString n
  | .str s => s
  | .arr xs => "[" ++ pyReprList xs ++ "]"
  | .obj fs => "\x7b" ++ pyReprFields fs ++ "\x7d"

/-- Python `v == 'lit'` for a string literal `lit`: true exactly when `v` is
a string equal to `lit` (no non-string value compares equal to a string in
Python). -/
def pyEqStr : JVal → String → Bool
  | .str t, s => t = s
  | _, _ => false

/-- Python iteration `for item in body`: a list yields its elements, a dict
yields its keys (as strings), a string yields its one-character substrings;
`None`, booleans and numbers are not iterable (`none` models the TypeError). -/
def iterElems : JVal → Option (List JVal)
  | .arr xs => some xs
  | .obj fs => some (fs.map (fun p => JVal.str p.1))
  | .str s => some (s.data.map (fun c => JVal.str (String.singleton c)))
  | _ => none

/-- `isinstance(item, dict) and item.get('type') == 'bookmark'`
(main.py line 99). -/
def isBookmarkRecord (item : JVal) : Bool :=
  match item with
  | .obj _ =>
    match jGet item "type" with
    | some v => pyEqStr v "bookmark"
    | none => false
  | _ => false

/-- The loop body of main.py lines 98-100: scan the decoded list response,
keeping dict items whose type tag is `bookmark`, keyed by
`str(item['bookmark_id'])`.  `none` models the KeyError raised when a
bookmark-typed item lacks `bookmark_id` (caught by the enclosing handler). -/
def scanItems : List JVal → List (String × JVal) → Option (List (String × JVal))
  | [], acc => some acc
  | item :: rest, acc =>
    if isBookmarkRecord item then
      match jGet item "bookmark_id" with
      | none => none
      | some bid => scanItems rest (dictInsert acc (pyStr bid) item)
    else scanItems rest acc

/-- The inline remote-state normalization of main.py lines 96-100: iterate
the decoded body and collect bookmark records.  `none` models an exception
escaping the loop (non-iterable body, or a bookmark record without an id). -/
def normalizeBookmarks (body : JVal) : Option (List (String × JVal)) :=
  match iterElems body with
  | none => none
  | some items => scanItems items []

/-- A tracked entry as stored in `article_data.json`: `added_at` timestamp
and the remote bookmark id (`none` models a record whose `id` key is
missing, read through `info.get('id')`). -/
structure TrackedInfo where
  added_at : Int
  id : Option JVal
deriving Repr

/-- The local tracking snapshot: a dict from URL to tracked record. -/
abbrev Snapshot := List (String × TrackedInfo)

/-- Outcome of the remote `bookmarks/list` call: the request raises, or it
returns a status code with a body (`none` body: `res.json()` raises). -/
inductive ListOutcome where
  | exc
  | resp (status : Nat) (body : Option JVal)

/-- The environment of one cleanup run: the list-call outcome and, per
bookmark id, the behaviour of the delete call (`none` = the delete request
raises; `some s` = it returns HTTP status `s`, which the code ignores). -/
structure Env where
  listOutcome : ListOutcome
  deleteBehavior : String → Option Nat

/-- What a cleanup run produces: the next snapshot, and the bookmark ids for
which a remote delete call was issued, in order. -/
structure CleanupResult where
  snapshot : Snapshot
  deletes : List String
deriving Repr

/-- main.py line 110: `current_time - info['added_at'] > seconds_in_24h`. -/
def agedPast (now : Int) (info : TrackedInfo) : Bool :=
  decide (86400 < now - info.added_at)

/-- main.py line 111: `str(info.get('id'))`; a missing id is Python `None`,
so its string form is `"None"`. -/
def bidStr (info : TrackedInfo) : String :=
  pyStr (info.id.getD JVal.null)

/-- main.py line 114: `bookmark.get('starred') == '0'`. -/
def starredIsZero (bookmark : JVal) : Bool :=
  match jGet bookmark "starred" with
  | some v => pyEqStr v "0"
  | none => false

/-- Whether the loop issues a remote delete for this record: aged past the
TTL, present in the normalized mapping, and its starred field equals "0". -/
def wouldDelete (now : Int) (unread : List (String × JVal)) (info : TrackedInfo) : Bool :=
  agedPast now info &&
    (match dictLookup unread (bidStr info) with
     | some bookmark => starredIsZero bookmark
     | none => false)

/-- The per-entry loop of main.py lines 108-121.  `none` models an exception
escaping the loop: the delete call at line 116 is outside every handler, so
a raising delete aborts the whole function. -/
def cleanupLoop (env : Env) (now : Int) (unread : List (String × JVal)) :
    Snapshot → Option CleanupResult
  | [] => some ⟨[], []⟩
  | (url, info) :: rest =>
    if agedPast now info then
      match dictLookup unread (bidStr info) with
      | some bookmark =>
        if starredIsZero bookmark then
          match env.deleteBehavior (bidStr info) with
          | none => none
          | some _ =>
            match cleanupLoop env now unread rest with
            | none => none
            | some r => some ⟨r.snapshot, bidStr info :: r.deletes⟩
        else cleanupLoop env now unread rest
      | none => cleanupLoop env now unread rest
    else
      match cleanupLoop env now unread rest with
      | none => none
      | some r => some ⟨(url, info) :: r.snapshot, r.deletes⟩

/-- `cleanup_old_articles` of main.py lines 87-121.  The try block wraps the
list call, the `res.json()` decode and the normalization loop; any failure
there returns the input snapshot unchanged.  A non-200 status likewise
returns the input unchanged.  The per-entry loop then rebuilds the snapshot. -/
def cleanup_old_articles (env : Env) (now : Int) (tracked : Snapshot) :
    Option CleanupResult :=
  match env.listOutcome with
  | .exc => some ⟨tracked, []⟩
  | .resp status body =>
    if status = 200 then
      match body with
      | none => some ⟨tracked, []⟩
      | some b =>
        match normalizeBookmarks b with
        | none => some ⟨tracked, []⟩
        | some unread => cleanupLoop env now unread tracked
    else some ⟨tracked, []⟩

/-- The entries the loop keeps: exactly those not aged past the TTL, in
order. -/
def keptOf (now : Int) : Snapshot → Snapshot
  | [] => []
  | (url, info) :: rest =>
    if agedPast now info then keptOf now rest
    else (url, info) :: keptOf now rest

/-- The bookmark ids the loop deletes remotely, in order. -/
def deletesOf (now : Int) (unread : List (String × JVal)) : Snapshot → List String
  | [] => []
  | (_, info) :: rest =>
    if wouldDelete now unread info then bidStr info :: deletesOf now unread rest
    else deletesOf now unread rest

/-- No delete call that this run will issue raises. -/
def goodDeletes (env : Env) (now : Int) (unread : List (String × JVal))
    (tracked : Snapshot) : Prop :=
  ∀ p ∈ tracked, wouldDelete now unread p.2 = true →
    (env.deleteBehavior (bidStr p.2)).isSome = true

/-- Outcome of one remote `bookmarks/add` call (main.py line 66): the
request raises, or returns a status and a body (`none` body: `res.json()`
raises). -/
inductive AddOutcome where
  | exc
  | resp (status : Nat) (body : Option JVal)

/-- main.py lines 71-75: the add response is usable when it is a non-empty
list whose first element carries `bookmark_id`; the extraction
`data[0]['bookmark_id']` raises (caught) otherwise. -/
def extractBookmarkId (body : JVal) : Option JVal :=
  match body with
  | .arr (x :: _) => jGet x "bookmark_id"
  | _ => none

/-- Whether the add call for `url` records an entry: status 200, decodable
body, and a usable bookmark id (any other outcome is logged and skipped). -/
def addOk (beh : String → AddOutcome) (url : String) : Option JVal :=
  match beh url with
  | .resp 200 (some body) => extractBookmarkId body
  | _ => none

/-- The per-item loop of main.py lines 62-85 over one (already reversed)
feed: skip URLs already tracked; otherwise submit an add and record the
entry on success.  Returns the updated snapshot and the URLs submitted. -/
def addLoop (beh : String → AddOutcome) (now : Int) :
    List String → Snapshot → Snapshot × List String
  | [], tracked => (tracked, [])
  | url :: rest, tracked =>
    if dictHasKey tracked url then addLoop beh now rest tracked
    else
      match addOk beh url with
      | some bid =>
        let r := addLoop beh now rest (dictInsert tracked url ⟨now, some bid⟩)
        (r.1, url :: r.2)
      | none =>
        let r := addLoop beh now rest tracked
        (r.1, url :: r.2)

/-- `add_new_articles` of main.py lines 57-85: each feed's entries are
processed in reversed (oldest-first) order; the snapshot threads through. -/
def add_new_articles (beh : String → AddOutcome) (now : Int) :
    List (List String) → Snapshot → Snapshot × List String
  | [], tracked => (tracked, [])
  | feed :: restFeeds, tracked =>
    let r1 := addLoop beh now feed.reverse tracked
    let r2 := add_new_articles beh now restFeeds r1.1
    (r2.1, r1.2 ++ r2.2)

/-- State of the persisted `article_data.json` file as the program observes
it: absent, raising on open/read (IOError), or holding raw content. -/
inductive FileState where
  | missing
  | readRaises
  | content (s : String)

/-- `get_tracked_data` of main.py lines 38-49, parameterized by the JSON
parser (`parse s = none` models `json.loads` raising JSONDecodeError).
The result is `none` only if an exception escapes; every branch of the code
catches, so every branch here is `some`. -/
def get_tracked_data (parse : String → Option JVal) : FileState → Option JVal
  | .missing => some (JVal.obj [])
  | .readRaises => some (JVal.obj [])
  | .content s =>
    if s.trim = "" then some (JVal.obj [])
    else
      match parse s.trim with
      | none => some (JVal.obj [])
      | some v => some v

/-! ### Helper lemmas -/

theorem dictLookup_dictInsert {α : Type} (m : List (String × α)) (k : String)
    (v : α) (j : String) :
    dictLookup (dictInsert m k v) j = if j = k then some v else dictLookup m j := by
  induction m with
  | nil =>
    by_cases hjk : j = k
    · subst hjk; simp [dictInsert, dictLookup]
    · simp [dictInsert, dictLookup, hjk, Ne.symm hjk]
  | cons p rest ih =>
    obtain ⟨a, w⟩ := p
    by_cases hak : a = k
    · subst hak
      by_cases hjk : j = a
      · subst hjk; simp [dictInsert, dictLookup]
      · simp [dictInsert, dictLookup, hjk, Ne.symm hjk]
    · by_cases haj : a = j
      · subst haj
        have hja : ¬ a = k := hak
        simp [dictInsert, dictLookup, hak, Ne.symm hak]
      · simp [dictInsert, dictLookup, hak, haj, ih]

theorem dictHasKey_dictInsert_self {α : Type} (m : List (String × α))
    (k : String) (v : α) : dictHasKey (dictInsert m k v) k = true := by
  simp [dictHasKey, dictLookup_dictInsert]

theorem dictHasKey_dictInsert_mono {α : Type} {m : List (String × α)}
    {j : String} (k : String) (v : α) (h : dictHasKey m j = true) :
    dictHasKey (dictInsert m k v) j = true := by
  by_cases hjk : j = k
  · subst hjk; exact dictHasKey_dictInsert_self m j v
  · simpa [dictHasKey, dictLookup_dictInsert, hjk] using h

theorem keptOf_append (now : Int) (l1 l2 : Snapshot) :
    keptOf now (l1 ++ l2) = keptOf now l1 ++ keptOf now l2 := by
  induction l1 with
  | nil => simp [keptOf]
  | cons p rest ih =>
    obtain ⟨url, info⟩ := p
    by_cases hA : agedPast now info = true
    · simp [keptOf, hA, ih]
    · simp [keptOf, hA, ih]

theorem deletesOf_append (now : Int) (unread : List (String × JVal))
    (l1 l2 : Snapshot) :
    deletesOf now unread (l1 ++ l2) =
      deletesOf now unread l1 ++ deletesOf now unread l2 := by
  induction l1 with
  | nil => simp [deletesOf]
  | cons p rest ih =>
    obtain ⟨url, info⟩ := p
    by_cases hW : wouldDelete now unread info = true
    · simp [deletesOf, hW, ih]
    · simp [deletesOf, hW, ih]

theorem not_aged_of_mem_keptOf {now : Int} {url : String} {info : TrackedInfo} :
    ∀ {l : Snapshot}, (url, info) ∈ keptOf now l → agedPast now info = false
  | [], h => by simp [keptOf] at h
  | (u, i) :: rest, h => by
    by_cases hA : agedPast now i = true
    · rw [keptOf, if_pos hA] at h
      exact not_aged_of_mem_keptOf h
    · rw [keptOf, if_neg hA] at h
      rcases List.mem_cons.mp h with heq | hmem
      · cases heq
        simpa using hA
      · exact not_aged_of_mem_keptOf hmem

theorem goodDeletes_sub (env : Env) (now : Int) (unread : List (String × JVal))
    {l1 l2 : Snapshot} (hsub : ∀ p ∈ l1, p ∈ l2)
    (h : goodDeletes env now unread l2) : goodDeletes env now unread l1 :=
  fun p hp hw => h p (hsub p hp) hw

theorem cleanupLoop_eq (env : Env) (now : Int) (unread : List (String × JVal)) :
    ∀ tracked : Snapshot, goodDeletes env now unread tracked →
      cleanupLoop env now unread tracked =
        some ⟨keptOf now tracked, deletesOf now unread tracked⟩ := by
  intro tracked
  induction tracked with
  | nil => intro _; rfl
  | cons p rest ih =>
    intro h
    obtain ⟨url, info⟩ := p
    have hrest : goodDeletes env now unread rest := fun q hq hw =>
      h q (List.mem_cons_of_mem _ hq) hw
    have ihr := ih hrest
    by_cases hA : agedPast now info = true
    · rcases hL : dictLookup unread (bidStr info) with _ | bookmark
      · have hW : wouldDelete now unread info = false := by
          simp [wouldDelete, hL]
        simp [cleanupLoop, hA, hL, ihr, keptOf, deletesOf, hW]
      · by_cases hS : starredIsZero bookmark = true
        · have hW : wouldDelete now unread info = true := by
            simp [wouldDelete, hA, hL, hS]
          have hd := h (url, info) (List.mem_cons_self _ _) hW
          rcases hst : env.deleteBehavior (bidStr info) with _ | st
          · rw [hst] at hd; simp at hd
          · simp [cleanupLoop, hA, hL, hS, hst, ihr, keptOf, deletesOf, hW]
        · have hW : wouldDelete now unread info = false := by
            simp only [wouldDelete, hL]
            simp [hS]
          simp [cleanupLoop, hA, hL, hS, ihr, keptOf, deletesOf, hW]
    · have hW : wouldDelete now unread info = false := by
        simp [wouldDelete, hA]
      simp [cleanupLoop, hA, ihr, keptOf, deletesOf, hW]

theorem cleanup_resp_eq {env : Env} {body : JVal}
    {unread : List (String × JVal)} (now : Int) (tracked : Snapshot)
    (hl : env.listOutcome = ListOutcome.resp 200 (some body))
    (hn : normalizeBookmarks body = some unread)
    (hd : goodDeletes env now unread tracked) :
    cleanup_old_articles env now tracked =
      some ⟨keptOf now tracked, deletesOf now unread tracked⟩ := by
  unfold cleanup_old_articles
  rw [hl]
  simp [hn, cleanupLoop_eq env now unread tracked hd]

theorem scanItems_all_skipped :
    ∀ {items : List JVal}, (∀ x ∈ items, isBookmarkRecord x = false) →
      ∀ acc, scanItems items acc = some acc
  | [], _, acc => rfl
  | item :: rest, h, acc => by
    have hx : isBookmarkRecord item = false := h item (List.mem_cons_self _ _)
    rw [scanItems, if_neg (by simp [hx])]
    exact scanItems_all_skipped (fun x hx2 => h x (List.mem_cons_of_mem _ hx2)) acc

theorem addLoop_hasKey_mono (beh : String → AddOutcome) (now : Int) :
    ∀ (l : List String) (t : Snapshot) {url : String},
      dictHasKey t url = true → dictHasKey (addLoop beh now l t).1 url = true := by
  intro l
  induction l with
  | nil => intro t url h; exact h
  | cons u rest ih =>
    intro t url h
    rw [addLoop]
    by_cases hk : dictHasKey t u = true
    · rw [if_pos hk]; exact ih t h
    · rw [if_neg hk]
      rcases ha : addOk beh u with _ | bid
      · simpa using ih t h
      · simpa using ih _ (dictHasKey_dictInsert_mono u ⟨now, some bid⟩ h)

theorem addLoop_covers (beh : String → AddOutcome) (now : Int) :
    ∀ (l : List String) (t : Snapshot) {url : String}, url ∈ l →
      (addOk beh url).isSome = true →
      dictHasKey (addLoop beh now l t).1 url = true := by
  intro l
  induction l with
  | nil => intro t url h; simp at h
  | cons u rest ih =>
    intro t url hmem hok
    rw [addLoop]
    by_cases hk : dictHasKey t u = true
    · rw [if_pos hk]
      rcases List.mem_cons.mp hmem with heq | hmem2
      · subst heq; exact addLoop_hasKey_mono beh now rest t hk
      · exact ih t hmem2 hok
    · rw [if_neg hk]
      rcases List.mem_cons.mp hmem with heq | hmem2
      · subst heq
        rcases ha : addOk beh url with _ | bid
        · rw [ha] at hok; simp at hok
        · have hkey : dictHasKey (dictInsert t url ⟨now, some bid⟩) url = true :=
            dictHasKey_dictInsert_self t url ⟨now, some bid⟩
          simpa using addLoop_hasKey_mono beh now rest _ hkey
      · rcases ha : addOk beh u with _ | bid
        · simpa using ih t hmem2 hok
        · simpa using ih _ hmem2 hok

theorem addLoop_noop (beh : String → AddOutcome) (now : Int) :
    ∀ (l : List String) (t : Snapshot),
      (∀ url ∈ l, dictHasKey t url = true) → addLoop beh now l t = (t, []) := by
  intro l
  induction l with
  | nil => intro t _; rfl
  | cons u rest ih =>
    intro t h
    rw [addLoop, if_pos (h u (List.mem_cons_self _ _))]
    exact ih t (fun url hu => h url (List.mem_cons_of_mem _ hu))

theorem add_hasKey_mono (beh : String → AddOutcome) (now : Int) :
    ∀ (feeds : List (List String)) (t : Snapshot) {url : String},
      dictHasKey t url = true →
      dictHasKey (add_new_articles beh now feeds t).1 url = true := by
  intro feeds
  induction feeds with
  | nil => intro t url h; exact h
  | cons feed rest ih =>
    intro t url h
    rw [add_new_articles]
    simpa using ih _ (addLoop_hasKey_mono beh now feed.reverse t h)

theorem add_covers (beh : String → AddOutcome) (now : Int) :
    ∀ (feeds : List (List String)) (t : Snapshot) {url : String},
      url ∈ feeds.flatten → (addOk beh url).isSome = true →
      dictHasKey (add_new_articles beh now feeds t).1 url = true := by
  intro feeds
  induction feeds with
  | nil => intro t url h; simp at h
  | cons feed rest ih =>
    intro t url hmem hok
    rw [add_new_articles]
    rw [List.flatten_cons, List.mem_append] at hmem
    rcases hmem with hfeed | hrest
    · have h1 : dictHasKey (addLoop beh now feed.reverse t).1 url = true :=
        addLoop_covers beh now feed.reverse t (List.mem_reverse.mpr hfeed) hok
      simpa using add_hasKey_mono beh now rest _ h1
    · simpa using ih _ hrest hok

theorem add_noop (beh : String → AddOutcome) (now : Int) :
    ∀ (feeds : List (List String)) (t : Snapshot),
      (∀ url ∈ feeds.flatten, dictHasKey t url = true) →
      add_new_articles beh now feeds t = (t, []) := by
  intro feeds
  induction feeds with
  | nil => intro t _; rfl
  | cons feed rest ih =>
    intro t h
    have h1 : addLoop beh now feed.reverse t = (t, []) := by
      refine addLoop_noop beh now feed.reverse t (fun url hu => ?hu)
      exact h url (by
        rw [List.flatten_cons, List.mem_append]
        exact Or.inl (List.mem_reverse.mp hu))
    have h2 : add_new_articles beh now rest t = (t, []) := by
      refine ih t (fun url hu => ?hu2)
      exact h url (by
        rw [List.flatten_cons, List.mem_append]
        exact Or.inr hu)
    rw [add_new_articles]
    simp [h1, h2]

/-- Shared corollary of the loop characterization: an aged entry for which
no delete fires (absent, or present but not starred-"0") is dropped from the
snapshot and contributes nothing to the delete calls; the run's outcome is
exactly that of the snapshot without the entry. -/
theorem cleanup_skip_entry
    (env : Env) (now : Int) (body : JVal) (unread : List (String × JVal))
    (before after : Snapshot) (url : String) (info : TrackedInfo)
    (hl : env.listOutcome = ListOutcome.resp 200 (some body))
    (hn : normalizeBookmarks body = some unread)
    (hd : goodDeletes env now unread (before ++ after))
    (hage : agedPast now info = true)
    (hW : wouldDelete now unread info = false) :
    cleanup_old_articles env now (before ++ (url, info) :: after) =
      some ⟨keptOf now (before ++ after), deletesOf now unread (before ++ after)⟩ ∧
    (url, info) ∉ keptOf now (before ++ after) := by
  have hdfull : goodDeletes env now unread (before ++ (url, info) :: after) := by
    intro p hp hw
    rcases List.mem_append.mp hp with h1 | h2
    · exact hd p (List.mem_append.mpr (Or.inl h1)) hw
    · rcases List.mem_cons.mp h2 with heq | h3
      · subst heq; rw [hW] at hw; exact absurd hw (by simp)
      · exact hd p (List.mem_append.mpr (Or.inr h3)) hw
  have hk : keptOf now (before ++ (url, info) :: after) =
      keptOf now (before ++ after) := by
    rw [keptOf_append, keptOf_append, keptOf, if_pos hage]
  have hdel : deletesOf now unread (before ++ (url, info) :: after) =
      deletesOf now unread (before ++ after) := by
    rw [deletesOf_append, deletesOf_append, deletesOf, if_neg (by simp [hW])]
  refine ⟨?_, ?_⟩
  · rw [cleanup_resp_eq now _ hl hn hdfull, hk, hdel]
  · intro hmem
    have hfalse := not_aged_of_mem_keptOf hmem
    rw [hage] at hfalse
    exact absurd hfalse (by simp)

/-- Claim C1: if the remote list call fails outright — a transport exception
or a non-success HTTP status — the cleanup run returns the input snapshot
unchanged (no keys added, removed, or modified) and issues no remote delete
call. -/
theorem claim1_list_failure_preserves_snapshot (env : Env) (now : Int)
    (tracked : Snapshot)
    (h : env.listOutcome = ListOutcome.exc ∨
      ∃ status body, env.listOutcome = ListOutcome.resp status body ∧
        status ≠ 200) :
    cleanup_old_articles env now tracked = some ⟨tracked, []⟩ := by
  rcases h with hexc | ⟨status, body, hr, hs⟩
  · unfold cleanup_old_articles; rw [hexc]
  · unfold cleanup_old_articles; rw [hr]; simp [hs]

/-- Claim C1 witness: a concrete run whose list call returns status 503
leaves a concrete one-entry snapshot untouched and deletes nothing. -/
theorem claim1_witness :
    cleanup_old_articles
      ⟨ListOutcome.resp 503 (some (JVal.arr [])), fun _ => some 200⟩
      100000 [("u", ⟨0, some (JVal.num 7)⟩)] =
      some ⟨[("u", ⟨0, some (JVal.num 7)⟩)], []⟩ :=
  claim1_list_failure_preserves_snapshot _ 100000 _
    (Or.inr ⟨503, some (JVal.arr []), rfl, by decide⟩)

/-- A remote bookmark record whose `starred` field is missing. -/
def recNoStar : JVal :=
  .obj [("type", .str "bookmark"), ("bookmark_id", .num 7)]

/-- A remote bookmark record with `starred` equal to "0". -/
def recStarZero : JVal :=
  .obj [("type", .str "bookmark"), ("bookmark_id", .num 5),
    ("starred", .str "0")]

/-- A remote bookmark record with `starred` equal to "1". -/
def recStarOne : JVal :=
  .obj [("type", .str "bookmark"), ("bookmark_id", .num 5),
    ("starred", .str "1")]

/-- Claim C2 counterexample: at this input the entry is aged (added at 0,
now 100000), its bookmark id 7 is present in the normalized mapping, and the
record's starred field is missing — hence string-compares unequal to "1",
so the claim demands a remote delete for id 7.  The code compares the
starred field to "0" instead, so it issues no delete at all (the deletes
list is empty) while still purging the entry. -/
theorem claim2_counterexample :
    cleanup_old_articles
      ⟨ListOutcome.resp 200 (some (JVal.arr [recNoStar])), fun _ => some 200⟩
      100000 [("u", ⟨0, some (JVal.num 7)⟩)] = some ⟨[], []⟩ := rfl

/-- Claim C2 (amended): for every tracked entry aged past the 24-hour TTL
whose bookmarkId is present in the normalized remote mapping and whose
record's starred field string-compares EQUAL to "0", the retention engine
issues a remote delete for that bookmarkId and removes the entry from the
local snapshot (entries with any other starred value, including a missing
field, are removed without a delete call). -/
theorem claim2_amended_delete_when_starred_zero
    (env : Env) (now : Int) (body : JVal) (unread : List (String × JVal))
    (before after : Snapshot) (url : String) (info : TrackedInfo)
    (bookmark : JVal)
    (hl : env.listOutcome = ListOutcome.resp 200 (some body))
    (hn : normalizeBookmarks body = some unread)
    (hd : goodDeletes env now unread (before ++ (url, info) :: after))
    (hage : agedPast now info = true)
    (hpresent : dictLookup unread (bidStr info) = some bookmark)
    (hstar : starredIsZero bookmark = true) :
    ∃ r, cleanup_old_articles env now (before ++ (url, info) :: after) =
        some r ∧
      bidStr info ∈ r.deletes ∧ (url, info) ∉ r.snapshot := by
  have hW : wouldDelete now unread info = true := by
    simp [wouldDelete, hage, hpresent, hstar]
  refine ⟨_, cleanup_resp_eq now _ hl hn hd, ?_, ?_⟩
  · rw [deletesOf_append]
    refine List.mem_append.mpr (Or.inr ?_)
    rw [deletesOf, if_pos hW]
    exact List.mem_cons_self _ _
  · intro hmem
    have hfalse := not_aged_of_mem_keptOf hmem
    rw [hage] at hfalse
    exact absurd hfalse (by simp)

/-- Claim C2 witness: a concrete aged entry whose remote record carries
starred "0" gets its delete issued and is dropped from the snapshot. -/
theorem claim2_witness :
    ∃ r, cleanup_old_articles
        ⟨ListOutcome.resp 200 (some (JVal.arr [recStarZero])),
         fun _ => some 200⟩
        100000 ([] ++ ("u", ⟨0, some (JVal.num 5)⟩) :: []) = some r ∧
      bidStr ⟨0, some (JVal.num 5)⟩ ∈ r.deletes ∧
      ("u", (⟨0, some (JVal.num 5)⟩ : TrackedInfo)) ∉ r.snapshot :=
  claim2_amended_delete_when_starred_zero _ 100000 (JVal.arr [recStarZero])
    [("5", recStarZero)] [] [] "u" ⟨0, some (JVal.num 5)⟩ recStarZero
    rfl rfl (fun _ _ _ => rfl) rfl rfl rfl

/-- Claim C3: an aged entry whose remote record is present and starred
(field equal to "1") is removed from the local snapshot, and the run's whole
outcome — next snapshot and every delete call issued — equals that of the
run without the entry: no delete call is ever issued for it. -/
theorem claim3_starred_purge_only
    (env : Env) (now : Int) (body : JVal) (unread : List (String × JVal))
    (before after : Snapshot) (url : String) (info : TrackedInfo)
    (bookmark : JVal)
    (hl : env.listOutcome = ListOutcome.resp 200 (some body))
    (hn : normalizeBookmarks body = some unread)
    (hd : goodDeletes env now unread (before ++ after))
    (hage : agedPast now info = true)
    (hpresent : dictLookup unread (bidStr info) = some bookmark)
    (hstar : jGet bookmark "starred" = some (JVal.str "1")) :
    cleanup_old_articles env now (before ++ (url, info) :: after) =
      some ⟨keptOf now (before ++ after),
            deletesOf now unread (before ++ after)⟩ ∧
    (url, info) ∉ keptOf now (before ++ after) := by
  have hS : starredIsZero bookmark = false := by
    simp [starredIsZero, hstar, pyEqStr]
  have hW : wouldDelete now unread info = false := by
    simp [wouldDelete, hpresent, hS]
  exact cleanup_skip_entry env now body unread before after url info
    hl hn hd hage hW

/-- Claim C3 witness: a concrete aged starred entry is purged from a
one-entry snapshot with zero delete calls. -/
theorem claim3_witness :
    cleanup_old_articles
      ⟨ListOutcome.resp 200 (some (JVal.arr [recStarOne])),
       fun _ => some 200⟩
      100000 ([] ++ ("u", ⟨0, some (JVal.num 5)⟩) :: []) =
      some ⟨keptOf 100000 ([] ++ []), deletesOf 100000 [("5", recStarOne)] ([] ++ [])⟩ ∧
    ("u", (⟨0, some (JVal.num 5)⟩ : TrackedInfo)) ∉ keptOf 100000 ([] ++ []) :=
  claim3_starred_purge_only _ 100000 (JVal.arr [recStarOne])
    [("5", recStarOne)] [] [] "u" ⟨0, some (JVal.num 5)⟩ recStarOne
    rfl rfl (fun p hp _ => absurd hp (List.not_mem_nil p)) rfl rfl rfl

/-- Claim C4 counterexample: a keyed object containing a sequence field is
NOT scanned like a raw sequence — iterating a Python dict yields its keys,
so the body yields the empty mapping while the raw sequence yields a
one-record mapping; and a null body does not yield an empty mapping but
raises inside the guarded region (modelled as `none`), after which the run
returns the input snapshot unchanged — a concrete aged entry that the
claim's empty-mapping behaviour would purge instead survives. -/
theorem claim4_counterexample :
    normalizeBookmarks (JVal.obj [("bookmarks", JVal.arr [recStarZero])]) =
      some [] ∧
    normalizeBookmarks (JVal.arr [recStarZero]) = some [("5", recStarZero)] ∧
    normalizeBookmarks JVal.null = none ∧
    cleanup_old_articles
      ⟨ListOutcome.resp 200 (some JVal.null), fun _ => some 200⟩ 100000
      [("u", ⟨0, some (JVal.num 5)⟩)] =
      some ⟨[("u", ⟨0, some (JVal.num 5)⟩)], []⟩ :=
  ⟨rfl, rfl, rfl, rfl⟩

/-- Claim C4 (amended): the inline normalization is total over iterable
bodies and scans a sequence body directly; a keyed object is iterated over
its keys, so it yields the EMPTY mapping whatever its fields (a "bookmarks"
field is never scanned); a string body yields the empty mapping; null, a
number or a boolean make the iteration raise (`none`), which the enclosing
handler catches: the cleanup run then returns the input snapshot unchanged
with no delete call. -/
theorem claim4_amended_normalizer_shapes :
    (∀ xs : List JVal, normalizeBookmarks (JVal.arr xs) = scanItems xs []) ∧
    (∀ fields : List (String × JVal),
      normalizeBookmarks (JVal.obj fields) = some []) ∧
    (∀ s : String, normalizeBookmarks (JVal.str s) = some []) ∧
    normalizeBookmarks JVal.null = none ∧
    (∀ n : Int, normalizeBookmarks (JVal.num n) = none) ∧
    (∀ b : Bool, normalizeBookmarks (JVal.bool b) = none) ∧
    (∀ (env : Env) (now : Int) (tracked : Snapshot) (body : JVal),
      env.listOutcome = ListOutcome.resp 200 (some body) →
      normalizeBookmarks body = none →
      cleanup_old_articles env now tracked = some ⟨tracked, []⟩) := by
  refine ⟨fun xs => rfl, fun fields => ?_, fun s => ?_, rfl, fun n => rfl,
    fun b => rfl, fun env now tracked body hl hn => ?_⟩
  · unfold normalizeBookmarks iterElems
    refine scanItems_all_skipped (fun x hx => ?_) []
    rcases List.mem_map.mp hx with ⟨p, _, hpx⟩
    rw [show x = JVal.str p.1 from hpx.symm]
    rfl
  · unfold normalizeBookmarks iterElems
    refine scanItems_all_skipped (fun x hx => ?_) []
    rcases List.mem_map.mp hx with ⟨c, _, hcx⟩
    rw [show x = JVal.str (String.singleton c) from hcx.symm]
    rfl
  · unfold cleanup_old_articles
    rw [hl]
    simp [hn]

/-- Claim C4 witness: the object-body and raising-body conjuncts of the
amended normalizer property, instantiated at concrete inputs. -/
theorem claim4_witness :
    normalizeBookmarks (JVal.obj [("bookmarks", JVal.arr [recStarOne])]) =
      some [] ∧
    normalizeBookmarks (JVal.num 3) = none ∧
    cleanup_old_articles
      ⟨ListOutcome.resp 200 (some (JVal.num 3)), fun _ => some 200⟩ 99999
      [("u", ⟨0, some (JVal.num 5)⟩)] =
      some ⟨[("u", ⟨0, some (JVal.num 5)⟩)], []⟩ :=
  ⟨claim4_amended_normalizer_shapes.2.1 [("bookmarks", JVal.arr [recStarOne])],
   claim4_amended_normalizer_shapes.2.2.2.2.1 3,
   claim4_amended_normalizer_shapes.2.2.2.2.2.2 _ 99999 _ (JVal.num 3)
     rfl rfl⟩

/-- Claim C5 counterexample: the delete call for the first (aged, present,
unstarred) entry raises a transport exception; the code's delete call sits
outside every handler, so the whole cleanup run raises (`none`): the entry
is not removed from a returned snapshot, and the remaining entry is never
processed — no next snapshot is returned at all. -/
theorem claim5_counterexample :
    cleanup_old_articles
      ⟨ListOutcome.resp 200 (some (JVal.arr [recStarZero])), fun _ => none⟩
      100000
      [("u", ⟨0, some (JVal.num 5)⟩), ("v", ⟨99999, some (JVal.num 9)⟩)] =
      none := rfl

/-- Claim C5 (amended): for an aged, remotely-present, unstarred entry the
purge is insensitive to the delete call's RESPONSE — whatever HTTP status
the delete returns (success or failure), the entry is removed, the delete
for its bookmarkId is issued, and the run continues over the remaining
entries and returns the next snapshot; but this holds only when the delete
call returns at all: a raising delete aborts the whole run. -/
theorem claim5_amended_purge_ignores_delete_status
    (env : Env) (now : Int) (body : JVal) (unread : List (String × JVal))
    (before after : Snapshot) (url : String) (info : TrackedInfo)
    (bookmark : JVal) (status : Nat)
    (hl : env.listOutcome = ListOutcome.resp 200 (some body))
    (hn : normalizeBookmarks body = some unread)
    (hdel : env.deleteBehavior (bidStr info) = some status)
    (hd : goodDeletes env now unread (before ++ after))
    (hage : agedPast now info = true)
    (hpresent : dictLookup unread (bidStr info) = some bookmark)
    (hstar : starredIsZero bookmark = true) :
    cleanup_old_articles env now (before ++ (url, info) :: after) =
      some ⟨keptOf now (before ++ after),
        deletesOf now unread before ++
          bidStr info :: deletesOf now unread after⟩ ∧
    (url, info) ∉ keptOf now (before ++ after) := by
  have hW : wouldDelete now unread info = true := by
    simp [wouldDelete, hage, hpresent, hstar]
  have hdfull : goodDeletes env now unread (before ++ (url, info) :: after) := by
    intro p hp hw
    rcases List.mem_append.mp hp with h1 | h2
    · exact hd p (List.mem_append.mpr (Or.inl h1)) hw
    · rcases List.mem_cons.mp h2 with heq | h3
      · subst heq; rw [hdel]; rfl
      · exact hd p (List.mem_append.mpr (Or.inr h3)) hw
  refine ⟨?_, ?_⟩
  · rw [cleanup_resp_eq now _ hl hn hdfull]
    rw [keptOf_append, keptOf_append, keptOf, if_pos hage,
      deletesOf_append, deletesOf, if_pos hW]
  · intro hmem
    have hfalse := not_aged_of_mem_keptOf hmem
    rw [hage] at hfalse
    exact absurd hfalse (by simp)

/-- Claim C5 witness: with a delete call that returns failure status 500,
the aged unstarred entry is still deleted remotely and purged, and the
second (young) entry is kept in the returned snapshot. -/
theorem claim5_witness :
    cleanup_old_articles
      ⟨ListOutcome.resp 200 (some (JVal.arr [recStarZero])), fun _ => some 500⟩
      100000
      ([] ++ ("u", ⟨0, some (JVal.num 5)⟩) ::
        [("v", ⟨99999, some (JVal.num 9)⟩)]) =
      some ⟨keptOf 100000 ([] ++ [("v", ⟨99999, some (JVal.num 9)⟩)]),
        deletesOf 100000 [("5", recStarZero)] [] ++
          bidStr ⟨0, some (JVal.num 5)⟩ ::
            deletesOf 100000 [("5", recStarZero)]
              [("v", ⟨99999, some (JVal.num 9)⟩)]⟩ ∧
    ("u", (⟨0, some (JVal.num 5)⟩ : TrackedInfo)) ∉
      keptOf 100000 ([] ++ [("v", ⟨99999, some (JVal.num 9)⟩)]) :=
  claim5_amended_purge_ignores_delete_status _ 100000
    (JVal.arr [recStarZero]) [("5", recStarZero)] []
    [("v", ⟨99999, some (JVal.num 9)⟩)] "u" ⟨0, some (JVal.num 5)⟩
    recStarZero 500 rfl rfl rfl (fun _ _ _ => rfl) rfl rfl rfl

/-- Claim C6: an aged entry whose bookmarkId is absent from the normalized
remote mapping is removed from the local snapshot, and the run's whole
outcome — next snapshot and every delete call — equals that of the run
without the entry: zero delete calls are issued for it. -/
theorem claim6_absent_purge_only
    (env : Env) (now : Int) (body : JVal) (unread : List (String × JVal))
    (before after : Snapshot) (url : String) (info : TrackedInfo)
    (hl : env.listOutcome = ListOutcome.resp 200 (some body))
    (hn : normalizeBookmarks body = some unread)
    (hd : goodDeletes env now unread (before ++ after))
    (hage : agedPast now info = true)
    (habsent : dictLookup unread (bidStr info) = none) :
    cleanup_old_articles env now (before ++ (url, info) :: after) =
      some ⟨keptOf now (before ++ after),
            deletesOf now unread (before ++ after)⟩ ∧
    (url, info) ∉ keptOf now (before ++ after) := by
  have hW : wouldDelete now unread info = false := by
    simp [wouldDelete, habsent]
  exact cleanup_skip_entry env now body unread before after url info
    hl hn hd hage hW

/-- Claim C6 witness: with an empty remote body (hence an empty normalized
mapping) a concrete aged entry is purged with zero delete calls. -/
theorem claim6_witness :
    cleanup_old_articles
      ⟨ListOutcome.resp 200 (some (JVal.arr [])), fun _ => some 200⟩
      100000 ([] ++ ("u", ⟨0, some (JVal.num 5)⟩) :: []) =
      some ⟨keptOf 100000 ([] ++ []), deletesOf 100000 [] ([] ++ [])⟩ ∧
    ("u", (⟨0, some (JVal.num 5)⟩ : TrackedInfo)) ∉ keptOf 100000 ([] ++ []) :=
  claim6_absent_purge_only _ 100000 (JVal.arr []) [] [] [] "u"
    ⟨0, some (JVal.num 5)⟩ rfl rfl
    (fun p hp _ => absurd hp (List.not_mem_nil p)) rfl rfl

/-- Claim C7: an entry whose age does not exceed 24 hours is kept in place,
unchanged, and contributes no remote call: the output snapshot keeps the
entry between its surviving neighbours, and the delete calls are exactly
those of the surrounding entries. -/
theorem claim7_keep_within_ttl
    (env : Env) (now : Int) (body : JVal) (unread : List (String × JVal))
    (before after : Snapshot) (url : String) (info : TrackedInfo)
    (hl : env.listOutcome = ListOutcome.resp 200 (some body))
    (hn : normalizeBookmarks body = some unread)
    (hd : goodDeletes env now unread (before ++ (url, info) :: after))
    (hyoung : agedPast now info = false) :
    cleanup_old_articles env now (before ++ (url, info) :: after) =
      some ⟨keptOf now before ++ (url, info) :: keptOf now after,
        deletesOf now unread before ++ deletesOf now unread after⟩ := by
  have hW : wouldDelete now unread info = false := by
    simp [wouldDelete, hyoung]
  rw [cleanup_resp_eq now _ hl hn hd]
  rw [keptOf_append, keptOf, if_neg (by simp [hyoung]),
    deletesOf_append, deletesOf, if_neg (by simp [hW])]

/-- Claim C7 witness: an entry aged exactly 24 hours (added at time 0,
now 86400) is kept unchanged with no delete call, even though its record is
present remotely and unstarred. -/
theorem claim7_witness :
    cleanup_old_articles
      ⟨ListOutcome.resp 200 (some (JVal.arr [recStarZero])), fun _ => some 200⟩
      86400 ([] ++ ("u", ⟨0, some (JVal.num 5)⟩) :: []) =
      some ⟨keptOf 86400 [] ++ ("u", ⟨0, some (JVal.num 5)⟩) :: keptOf 86400 [],
        deletesOf 86400 [("5", recStarZero)] [] ++
          deletesOf 86400 [("5", recStarZero)] []⟩ :=
  claim7_keep_within_ttl _ 86400 (JVal.arr [recStarZero])
    [("5", recStarZero)] [] [] "u" ⟨0, some (JVal.num 5)⟩ rfl rfl
    (fun _ _ _ => rfl) rfl

/-- Claim C8: when every feed URL's add call succeeds, running the
ingestion engine twice over the same feed contents adds each distinct URL
at most once: after the first run every feed URL is a snapshot key, and the
second run submits no add call and leaves the snapshot unchanged. -/
theorem claim8_ingestion_idempotent (beh : String → AddOutcome)
    (now now2 : Int) (feeds : List (List String)) (s0 : Snapshot)
    (h : ∀ url ∈ feeds.flatten, (addOk beh url).isSome = true) :
    (∀ url ∈ feeds.flatten,
      dictHasKey (add_new_articles beh now feeds s0).1 url = true) ∧
    add_new_articles beh now2 feeds (add_new_articles beh now feeds s0).1 =
      ((add_new_articles beh now feeds s0).1, []) := by
  have hcov : ∀ url ∈ feeds.flatten,
      dictHasKey (add_new_articles beh now feeds s0).1 url = true :=
    fun url hu => add_covers beh now feeds s0 hu (h url hu)
  exact ⟨hcov, add_noop beh now2 feeds _ hcov⟩

/-- An add behaviour whose every call succeeds with bookmark id 1. -/
def okBeh : String → AddOutcome :=
  fun _ => .resp 200 (some (.arr [.obj [("bookmark_id", .num 1)]]))

/-- Claim C8 witness: a concrete two-URL feed ingested twice from the empty
snapshot; after the first run the first URL is tracked, and the second run
submits nothing and returns the first run's snapshot unchanged. -/
theorem claim8_witness :
    dictHasKey (add_new_articles okBeh 10 [["a", "b"]] []).1 "a" = true ∧
    add_new_articles okBeh 20 [["a", "b"]]
        (add_new_articles okBeh 10 [["a", "b"]] []).1 =
      ((add_new_articles okBeh 10 [["a", "b"]] []).1, []) :=
  ⟨(claim8_ingestion_idempotent okBeh 10 20 [["a", "b"]] []
      (fun _ _ => rfl)).1 "a" (by simp),
   (claim8_ingestion_idempotent okBeh 10 20 [["a", "b"]] []
      (fun _ _ => rfl)).2⟩

/-- Claim C9: loading the tracking store never lets an exception escape, and
a missing file, a file whose read raises, an empty (all-whitespace) file, or
unparsable content each yield the empty snapshot. -/
theorem claim9_load_safe (parse : String → Option JVal) (fs : FileState) :
    (get_tracked_data parse fs).isSome = true ∧
    (fs = FileState.missing →
      get_tracked_data parse fs = some (JVal.obj [])) ∧
    (fs = FileState.readRaises →
      get_tracked_data parse fs = some (JVal.obj [])) ∧
    (∀ s, fs = FileState.content s → (s.trim = "" ∨ parse s.trim = none) →
      get_tracked_data parse fs = some (JVal.obj [])) := by
  refine ⟨?_, ?_, ?_, ?_⟩
  · cases fs with
    | missing => rfl
    | readRaises => rfl
    | content s =>
      unfold get_tracked_data
      by_cases he : s.trim = ""
      · simp [he]
      · rcases hp : parse s.trim with _ | v <;> simp [he, hp]
  · intro hm; subst hm; rfl
  · intro hr; subst hr; rfl
  · intro s hc hbad
    subst hc
    unfold get_tracked_data
    rcases hbad with he | hp
    · simp [he]
    · by_cases he : s.trim = ""
      · simp [he]
      · simp [he, hp]

/-- Claim C9 witness: unparsable content yields the empty snapshot. -/
theorem claim9_witness :
    get_tracked_data (fun _ => none) (FileState.content "garbage") =
      some (JVal.obj []) :=
  (claim9_load_safe (fun _ => none) (FileState.content "garbage")).2.2.2
    "garbage" rfl (Or.inr rfl)

/-- A remote bookmark record whose bookmark_id is null: its stringified key
is "None". -/
def recNullId : JVal :=
  .obj [("type", .str "bookmark"), ("bookmark_id", JVal.null),
    ("starred", .str "0")]

/-- Claim C10 counterexample: an aged entry with a missing `id` field is
coerced to the string "None" — but "None" CAN be a key of the normalized
mapping: here the remote response holds a bookmark record whose id is null,
whose key also stringifies to "None", and its starred field is "0", so the
run issues a remote delete for bookmark id "None" instead of purging with no
delete call. -/
theorem claim10_counterexample :
    cleanup_old_articles
      ⟨ListOutcome.resp 200 (some (JVal.arr [recNullId])), fun _ => some 200⟩
      100000 [("u", ⟨0, none⟩)] = some ⟨[], ["None"]⟩ := rfl

/-- Claim C10 (amended): an aged entry whose stored record lacks the `id`
field does not make the cleanup run raise: the missing identifier is coerced
to the string "None", and PROVIDED "None" is not a key of the normalized
remote mapping (no remote bookmark record's identifier stringifies to
"None"), the entry is purged locally and the run's outcome equals that of
the run without the entry — no remote delete call is issued for it. -/
theorem claim10_amended_missing_id
    (env : Env) (now : Int) (body : JVal) (unread : List (String × JVal))
    (before after : Snapshot) (url : String) (addedAt : Int)
    (hl : env.listOutcome = ListOutcome.resp 200 (some body))
    (hn : normalizeBookmarks body = some unread)
    (hd : goodDeletes env now unread (before ++ after))
    (hage : agedPast now ⟨addedAt, none⟩ = true)
    (hnone : dictLookup unread "None" = none) :
    cleanup_old_articles env now
        (before ++ (url, ⟨addedAt, none⟩) :: after) =
      some ⟨keptOf now (before ++ after),
            deletesOf now unread (before ++ after)⟩ ∧
    (url, (⟨addedAt, none⟩ : TrackedInfo)) ∉ keptOf now (before ++ after) := by
  have hbid : bidStr ⟨addedAt, none⟩ = "None" := rfl
  have habsent : dictLookup unread (bidStr ⟨addedAt, none⟩) = none := by
    rw [hbid]; exact hnone
  have hW : wouldDelete now unread ⟨addedAt, none⟩ = false := by
    simp [wouldDelete, habsent]
  exact cleanup_skip_entry env now body unread before after url
    ⟨addedAt, none⟩ hl hn hd hage hW

/-- Claim C10 witness: a concrete aged id-less entry against a remote
mapping without a "None" key is purged, without a delete call and without
the run raising. -/
theorem claim10_witness :
    cleanup_old_articles
      ⟨ListOutcome.resp 200 (some (JVal.arr [recStarZero])), fun _ => some 200⟩
      100000 ([] ++ ("u", ⟨0, none⟩) :: []) =
      some ⟨keptOf 100000 ([] ++ []),
        deletesOf 100000 [("5", recStarZero)] ([] ++ [])⟩ ∧
    ("u", (⟨0, none⟩ : TrackedInfo)) ∉ keptOf 100000 ([] ++ []) :=
  claim10_amended_missing_id _ 100000 (JVal.arr [recStarZero])
    [("5", recStarZero)] [] [] "u" 0 rfl rfl
    (fun p hp _ => absurd hp (List.not_mem_nil p)) rfl rfl

end InstapaperSync
